import Mathlib

/-!
A verification development for the chapyter JupyterLab plugin
(`src/index.ts`).  The data model and the operations are a shallow
embedding of the TypeScript source: cells are records of the fields the
plugin reads and writes, a notebook is the ordered widget list together
with the active-cell index, and the two execution-event handlers are
state-transition functions returning the new notebook plus the list of
host commands they issued (execution requests).

Host primitives that the plugin calls but does not define
(`NotebookActions.selectAbove` / `selectBelow`, `NotebookActions.run`)
are modelled from the spec's external-interface section: relative
one-step cursor movement, and an execution request that is recorded as
an effect without changing the notebook structure.  CSS class toggling
and the multi-selection set are presentation-only and are not modelled.

JavaScript string operations are embedded through `List Char`:
`startsWith` as a prefix test, `includes` as a substring test, and
`split('\n')[0]` as take-until-newline.
-/

set_option maxRecDepth 4000

namespace Chapyter

/-- JS `String.prototype.startsWith` on the character lists. -/
def listIsPrefix : List Char → List Char → Bool
  | [], _ => true
  | _ :: _, [] => false
  | a :: as, b :: bs => if a = b then listIsPrefix as bs else false

/-- `s.startsWith(p)` from the JavaScript source. -/
def strStartsWith (s p : String) : Bool :=
  listIsPrefix p.toList s.toList

/-- `s.split('\n')[0]` from the JavaScript source: the text up to the
first newline. -/
def firstLineOf (s : String) : String :=
  String.mk (s.toList.takeWhile (fun c => decide (c ≠ '\n')))

/-- JS `String.prototype.includes` on character lists: some tail of the
second list has the first list as a prefix. -/
def listHasInfix (p : List Char) : List Char → Bool
  | [] => listIsPrefix p []
  | c :: t => listIsPrefix p (c :: t) || listHasInfix p t

/-- `s.includes(p)` from the JavaScript source. -/
def strIncludes (s p : String) : Bool :=
  listHasInfix p.toList s.toList

/-- The `cellType` field of the `ChapyterCell` metadata record:
`'generated' | 'original'` in the source. -/
inductive ChapyterCellType where
  | generated
  | original
deriving DecidableEq

/-- The `ChapyterCellMetadata` record of the source:
`{ linkedCellId?: string; cellType: 'generated' | 'original' }`. -/
structure ChapyterCellMetadata where
  linkedCellId : Option String
  cellType : ChapyterCellType
deriving DecidableEq

/-- A notebook cell, restricted to the fields the plugin reads or
writes.  `isCode` models `cell.model.type === 'code'` (and
`isCodeCellModel`), `chapyterMetadata` the `ChapyterCell` metadata key,
`deletable` the test `getMetadata('deletable') !== false`,
`executionCount` the nullable `executionCount` number. -/
structure Cell where
  id : String
  source : String
  isCode : Bool
  chapyterMetadata : Option ChapyterCellMetadata
  deletable : Bool
  inputHidden : Bool
  executionCount : Option Nat
deriving DecidableEq

/-- Placeholder used for out-of-range index reads; all theorems guard
indices so that it is never the cell actually denoted. -/
def dummyCell : Cell :=
  { id := "", source := "", isCode := false, chapyterMetadata := none,
    deletable := true, inputHidden := false, executionCount := none }

/-- A notebook: the ordered widget list, the single active-cell cursor,
and the `model.deletedCells` log that `deleteCell` appends to. -/
structure Notebook where
  widgets : List Cell
  activeCellIndex : Nat
  deletedCells : List String
deriving DecidableEq

/-- `isCellNotGenerated` from the source: false exactly when the cell is
a code cell whose `ChapyterCell` metadata carries `cellType:
'generated'`. -/
def isCellNotGenerated (cell : Cell) : Bool :=
  match cell.isCode, cell.chapyterMetadata with
  | true, some metadata =>
      if metadata.cellType = ChapyterCellType.generated then false else true
  | _, _ => true

/-- `findCellById` from the source: first cell with the given id. -/
def findCellById (notebook : Notebook) (id : String) : Option Cell :=
  notebook.widgets.find? (fun cell => decide (cell.id = id))

/-- `findCellIndexById` from the source; the `-1` sentinel is modelled
as `none`. -/
def findCellIndexById (notebook : Notebook) (id : String) : Option Nat :=
  notebook.widgets.findIdx? (fun cell => decide (cell.id = id))

/-- The template string built in `findCellByTemplateString`
(the `searchTempalte` variable, typo kept from the source). -/
def searchTempalte (executionId : Nat) : String :=
  "# Assistant Code for Cell [" ++ toString executionId ++ "]:"

/-- Index form of `findCellByTemplateString`.  The JS guard
`if (executionId)` is falsy for both `null` and `0`, hence the two
no-scan branches.  A matching cell is a code cell whose first source
line starts with the template marker. -/
def findCellByTemplateStringIdx (notebook : Notebook)
    (executionId : Option Nat) : Option Nat :=
  match executionId with
  | none => none
  | some n =>
    if n = 0 then none
    else
      notebook.widgets.findIdx? (fun cell =>
        cell.isCode && strStartsWith (firstLineOf cell.source) (searchTempalte n))

/-- `findCellByTemplateString` from the source. -/
def findCellByTemplateString (notebook : Notebook)
    (executionId : Option Nat) : Option Cell :=
  (findCellByTemplateStringIdx notebook executionId).map
    (fun i => notebook.widgets.getD i dummyCell)

/-- Modelled from the spec: the host primitive `NotebookActions.selectBelow`,
a relative one-step cursor move downwards (no-op at the last cell). -/
def selectBelow (notebook : Notebook) : Notebook :=
  if notebook.activeCellIndex + 1 < notebook.widgets.length then
    { notebook with activeCellIndex := notebook.activeCellIndex + 1 }
  else notebook

/-- Modelled from the spec: the host primitive `NotebookActions.selectAbove`,
a relative one-step cursor move upwards (no-op at the first cell). -/
def selectAbove (notebook : Notebook) : Notebook :=
  if 0 < notebook.activeCellIndex then
    { notebook with activeCellIndex := notebook.activeCellIndex - 1 }
  else notebook

/-- `selectCellById` from the source: walk the cursor step by step from
the current active index to the index of the cell with the given id,
issuing a step only when the cell at the loop position does not have a
hidden input region.  The loop condition reads the widget list, which no
step modifies, so the list is captured once. -/
def selectCellById (notebook : Notebook) (id : String) : Notebook :=
  let activeCellIndex := notebook.activeCellIndex
  match findCellIndexById notebook id with
  | none => notebook
  | some targetCellIndex =>
    if activeCellIndex = targetCellIndex then notebook
    else if activeCellIndex < targetCellIndex then
      (List.range' activeCellIndex (targetCellIndex - activeCellIndex)).foldl
        (fun acc i =>
          if (notebook.widgets.getD i dummyCell).inputHidden then acc
          else selectBelow acc)
        notebook
    else
      ((List.range' (targetCellIndex + 1) (activeCellIndex - targetCellIndex)).reverse).foldl
        (fun acc i =>
          if (notebook.widgets.getD i dummyCell).inputHidden then acc
          else selectAbove acc)
        notebook

/-- `isCellChapyterMagicCell` from the source.  The TS parameter
`strict` defaults to `false`; here it is always passed explicitly, and
the call site that omitted it passes `false`. -/
def isCellChapyterMagicCell (cell : Cell) (strict : Bool) : Bool :=
  let codeCellText := cell.source
  if strStartsWith codeCellText "%chat" || strStartsWith codeCellText "%%chat" then
    if !strStartsWith codeCellText "%%chatonly" || !strict then true
    else false
  else false

/-- `isCellChapyterMagicCellSafeMode` from the source: the first line
contains `-s` or `--safe`. -/
def isCellChapyterMagicCellSafeMode (cell : Cell) : Bool :=
  let firstLine := firstLineOf cell.source
  strIncludes firstLine "-s" || strIncludes firstLine "--safe"

/-- The loop body test of `deleteCell`: the widget at the index is the
cell being deleted (reference equality `===` is modelled as structural
equality) and its `deletable` metadata is not `false`. -/
def deletableOccurrence (notebook : Notebook) (cell : Cell) (index : Nat) : Bool :=
  decide (notebook.widgets.getD index dummyCell = cell)
    && (notebook.widgets.getD index dummyCell).deletable

/-- The `toDelete` list built by the `forEach` loop of `deleteCell`, in
ascending index order (before the in-place `reverse()`). -/
def toDeleteIndices (notebook : Notebook) (cell : Cell) : List Nat :=
  (List.range notebook.widgets.length).filter (deletableOccurrence notebook cell)

/-- `deleteCell` from the source.  `toDelete` collects the indices of
the deletable occurrences of the cell; the ids are pushed onto
`model.deletedCells`; the occurrences are then erased in descending
index order, and the active index becomes `toDelete[0] - toDelete.length + 1`
read after the in-place `reverse()`, i.e. the largest deleted index
minus the count plus one (the `+ 1` is applied first, which is equal on
naturals because the largest of `k` distinct indices is at least `k - 1`).
The `deselectAll` call touches only the unmodelled multi-selection. -/
def deleteCell (notebook : Notebook) (cell : Cell) : Notebook :=
  let toDelete : List Nat := toDeleteIndices notebook cell
  let notebook1 :=
    { notebook with
        deletedCells := notebook.deletedCells ++
          toDelete.map (fun index => (notebook.widgets.getD index dummyCell).id) }
  if toDelete.isEmpty then
    notebook1
  else
    let reversed := toDelete.reverse
    { notebook1 with
        widgets := reversed.foldl (fun widgets index => widgets.eraseIdx index)
          notebook.widgets,
        activeCellIndex := reversed.headD 0 + 1 - toDelete.length }

/-- Host commands issued by the handlers; `runRequested` models the call
`NotebookActions.run(notebook, sessionContext)`. -/
inductive Effect where
  | runRequested
deriving DecidableEq

/-- Overwrite one element of a list in place. -/
def updateAt {α : Type} : List α → Nat → (α → α) → List α
  | [], _, _ => []
  | c :: t, 0, f => f c :: t
  | c :: t, i + 1, f => c :: updateAt t i f

/-- Overwrite a cell's `ChapyterCell` metadata record. -/
def withMeta (metadata : ChapyterCellMetadata) (cell : Cell) : Cell :=
  { cell with chapyterMetadata := some metadata }

/-- Overwrite a cell's `inputHidden` flag. -/
def withHidden (hidden : Bool) (cell : Cell) : Cell :=
  { cell with inputHidden := hidden }

/-- `model.setMetadata('ChapyterCell', …)` on the cell at an index. -/
def setChapyterMetadata (notebook : Notebook) (index : Nat)
    (metadata : ChapyterCellMetadata) : Notebook :=
  { notebook with
      widgets := updateAt notebook.widgets index (withMeta metadata) }

/-- `cell.inputHidden = hidden` on the cell at an index. -/
def setInputHidden (notebook : Notebook) (index : Nat) (hidden : Bool) : Notebook :=
  { notebook with
      widgets := updateAt notebook.widgets index (withHidden hidden) }

/-- The `if (assistanceCell)` body of the `executed` handler: tag the
assistance cell as generated and linked, optionally (outside safe mode)
navigate to it, request its execution, hide its input, re-select it and
step below, and finally write the trigger cell's own link metadata. -/
def executedLinkStep (notebook1 : Notebook) (cellIndex : Nat) (chatCell : Cell)
    (inSafeMode : Bool) (assistanceIndex : Nat) : Notebook × List Effect :=
  let assistanceCell := notebook1.widgets.getD assistanceIndex dummyCell
  let notebook2 := setChapyterMetadata notebook1 assistanceIndex
    { linkedCellId := some chatCell.id, cellType := ChapyterCellType.generated }
  let stepRun :=
    if !inSafeMode then
      let notebook3 := selectCellById notebook2 assistanceCell.id
      (setInputHidden notebook3 assistanceIndex true, [Effect.runRequested])
    else (notebook2, ([] : List Effect))
  let notebook4 := selectCellById stepRun.1 assistanceCell.id
  let notebook5 := if !inSafeMode then selectBelow notebook4 else notebook4
  let notebook6 := setChapyterMetadata notebook5 cellIndex
    { linkedCellId := some assistanceCell.id, cellType := ChapyterCellType.original }
  (notebook6, stepRun.2)

/-- The `NotebookActions.executed` handler from `activate`.  The
executed cell is given by its index (`args.cell` is a live reference;
every mutation through it is an update at this index).  The class
toggles are presentation-only and unmodelled; `NotebookActions.run` is
recorded as an effect. -/
def executedHandler (notebook : Notebook) (cellIndex : Nat)
    (success : Bool) : Notebook × List Effect :=
  if success then
    let chatCell := notebook.widgets.getD cellIndex dummyCell
    if isCellChapyterMagicCell chatCell true && isCellNotGenerated chatCell then
      let notebook1 :=
        if chatCell.chapyterMetadata = none then
          setChapyterMetadata notebook cellIndex
            { linkedCellId := none, cellType := ChapyterCellType.original }
        else notebook
      let inSafeMode := isCellChapyterMagicCellSafeMode chatCell
      match findCellByTemplateStringIdx notebook1 chatCell.executionCount with
      | some assistanceIndex =>
        executedLinkStep notebook1 cellIndex chatCell inSafeMode assistanceIndex
      | none => (notebook1, [])
    else (notebook, [])
  else (notebook, [])

/-- The `NotebookActions.executionScheduled` handler from `activate`.
The scheduled cell is given by its index; the class toggle is
presentation-only and unmodelled. -/
def executionScheduledHandler (notebook : Notebook) (cellIndex : Nat) : Notebook :=
  let chatCell := notebook.widgets.getD cellIndex dummyCell
  if isCellChapyterMagicCell chatCell false && isCellNotGenerated chatCell then
    let linkedCellId := chatCell.chapyterMetadata.bind (fun m => m.linkedCellId)
    match linkedCellId with
    | some lid =>
      match findCellById notebook lid with
      | some linkedCell =>
        let notebook1 := deleteCell notebook linkedCell
        selectCellById notebook1 chatCell.id
      | none => notebook
    | none => notebook
  else notebook

/-- Erasing a set of positions (given as a predicate on the original
indices) from a list; recursion shifts the predicate.  `deleteCell`'s
descending-order `eraseIdx` loop computes exactly this (proved below). -/
def keepNot {α : Type} (q : Nat → Bool) : List α → List α
  | [] => []
  | c :: t =>
    if q 0 then keepNot (fun i => q (i + 1)) t
    else c :: keepNot (fun i => q (i + 1)) t

/-- Number of non-hidden loop positions in the downward walk from `a`
(inclusive) to `t` (exclusive); each issues one `selectBelow`. -/
def visibleStepsDown (notebook : Notebook) (a t : Nat) : Nat :=
  (List.range' a (t - a)).countP
    (fun i => !(notebook.widgets.getD i dummyCell).inputHidden)

/-- Number of non-hidden loop positions in the upward walk from `a`
(inclusive) down to `t` (exclusive); each issues one `selectAbove`. -/
def visibleStepsUp (notebook : Notebook) (t a : Nat) : Nat :=
  (List.range' (t + 1) (a - t)).countP
    (fun i => !(notebook.widgets.getD i dummyCell).inputHidden)

/-- Observation: the given cell carries `ChapyterCell` metadata marking
it generated and linked to the given trigger id. -/
def isGenLinkedTo (tid : String) (cell : Cell) : Bool :=
  match cell.chapyterMetadata with
  | some m =>
      decide (m.cellType = ChapyterCellType.generated)
        && decide (m.linkedCellId = some tid)
  | none => false

/-- Observation: number of cells of the notebook that are generated
cells linked to the given trigger id. -/
def countGenLinked (notebook : Notebook) (tid : String) : Nat :=
  notebook.widgets.countP (isGenLinkedTo tid)

/-! ### Concrete notebooks used by witnesses and counterexamples -/

/-- A plain deletable visible code cell without metadata. -/
def plainCell (id source : String) : Cell :=
  { id := id, source := source, isCode := true, chapyterMetadata := none,
    deletable := true, inputHidden := false, executionCount := none }

/-- A cell value occurring twice in `nbDupDelete`. -/
def dupCell : Cell := plainCell "dup" "x = 1"

/-- Five-cell notebook whose positions 1 and 3 hold the same cell value. -/
def nbDupDelete : Notebook :=
  { widgets := [plainCell "c0" "a", dupCell, plainCell "c2" "b", dupCell,
      plainCell "c4" "c"],
    activeCellIndex := 0, deletedCells := [] }

/-- A cell starting with the reserved `%%chatonly` sub-prefix. -/
def chatonlyCell : Cell := plainCell "co" "%%chatonly tell me"

/-- A trigger cell already linked (metadata names cell id `g`). -/
def trigCell : Cell :=
  { id := "t", source := "%chat hi", isCode := true,
    chapyterMetadata := some ⟨some "g", ChapyterCellType.original⟩,
    deletable := true, inputHidden := false, executionCount := some 1 }

/-- A stale generated cell linked to `t`, marked non-deletable. -/
def staleGenUndeletable : Cell :=
  { id := "g", source := "# Assistant Code for Cell [9]:\nx", isCode := true,
    chapyterMetadata := some ⟨some "t", ChapyterCellType.generated⟩,
    deletable := false, inputHidden := true, executionCount := none }

/-- The same stale generated cell, but deletable. -/
def staleGenDeletable : Cell :=
  { staleGenUndeletable with deletable := true }

/-- A freshly produced assistance cell carrying the marker for
execution count 1 and no metadata yet. -/
def freshGenCell : Cell := plainCell "a" "# Assistant Code for Cell [1]:\ny"

/-- Trigger plus non-deletable stale generated cell. -/
def nbStaleUndeletable : Notebook :=
  { widgets := [trigCell, staleGenUndeletable],
    activeCellIndex := 0, deletedCells := [] }

/-- `nbStaleUndeletable` after the backend appended the fresh
assistance cell. -/
def nbStaleUndeletableFresh : Notebook :=
  { widgets := [trigCell, staleGenUndeletable, freshGenCell],
    activeCellIndex := 0, deletedCells := [] }

/-- Trigger plus deletable stale generated cell. -/
def nbStaleDeletable : Notebook :=
  { widgets := [trigCell, staleGenDeletable],
    activeCellIndex := 0, deletedCells := [] }

/-- A fresh unlinked trigger cell with execution count 1. -/
def trigFresh : Cell :=
  { id := "t4", source := "%chat add", isCode := true, chapyterMetadata := none,
    deletable := true, inputHidden := false, executionCount := some 1 }

/-- Assistance cell matching `trigFresh`'s execution count. -/
def genFresh : Cell := plainCell "a4" "# Assistant Code for Cell [1]:\nz"

/-- Fresh trigger directly above its fresh assistance cell. -/
def nbFreshLink : Notebook :=
  { widgets := [trigFresh, genFresh], activeCellIndex := 0, deletedCells := [] }

/-- A safe-mode trigger cell (`-s` on the first line). -/
def trigSafe : Cell :=
  { id := "t5", source := "%chat -s q", isCode := true, chapyterMetadata := none,
    deletable := true, inputHidden := false, executionCount := some 1 }

/-- A hidden-input code cell sitting between trigger and assistance. -/
def hiddenMid : Cell :=
  { id := "h5", source := "pass", isCode := true, chapyterMetadata := none,
    deletable := true, inputHidden := true, executionCount := none }

/-- Assistance cell for the safe-mode trigger. -/
def genSafe : Cell := plainCell "a5" "# Assistant Code for Cell [1]:\nw"

/-- Safe-mode trigger, hidden cell, assistance cell. -/
def nbSafeHidden : Notebook :=
  { widgets := [trigSafe, hiddenMid, genSafe],
    activeCellIndex := 0, deletedCells := [] }

/-- Safe-mode trigger directly above its assistance cell. -/
def nbSafePlain : Notebook :=
  { widgets := [trigSafe, genSafe], activeCellIndex := 0, deletedCells := [] }

/-- A non-magic code cell. -/
def ordinaryCell : Cell := plainCell "p" "print(1)"

/-- Notebook holding only the non-magic cell. -/
def nbOrdinary : Notebook :=
  { widgets := [ordinaryCell], activeCellIndex := 0, deletedCells := [] }

/-- Three cells with the middle one hidden, for the navigation claims. -/
def nbNavHidden : Notebook :=
  { widgets := [plainCell "n0" "a", { plainCell "n1" "b" with inputHidden := true },
      plainCell "n2" "c"],
    activeCellIndex := 0, deletedCells := [] }

/-- A code cell whose first line carries the marker for execution
count 0. -/
def markerZeroCell : Cell := plainCell "m0" "# Assistant Code for Cell [0]:\nq"

/-- Notebook holding only the marker-0 cell. -/
def nbMarkerZero : Notebook :=
  { widgets := [markerZeroCell], activeCellIndex := 0, deletedCells := [] }

section UpdateAtLemmas

variable {α β : Type} {f : α → α} {p : α → Bool}

theorem length_updateAt (l : List α) (i : Nat) (f : α → α) :
    (updateAt l i f).length = l.length := by
  induction l generalizing i with
  | nil => rfl
  | cons c t ih =>
    cases i with
    | zero => rfl
    | succ i => simpa [updateAt] using ih i

theorem get?_updateAt_self (l : List α) (i : Nat) (f : α → α) :
    (updateAt l i f).get? i = (l.get? i).map f := by
  induction l generalizing i with
  | nil => cases i <;> rfl
  | cons c t ih =>
    cases i with
    | zero => rfl
    | succ i => simpa [updateAt] using ih i

theorem get?_updateAt_ne (l : List α) {i j : Nat} (f : α → α) (h : i ≠ j) :
    (updateAt l i f).get? j = l.get? j := by
  induction l generalizing i j with
  | nil => cases i <;> rfl
  | cons c t ih =>
    cases i with
    | zero =>
      cases j with
      | zero => exact absurd rfl h
      | succ j => rfl
    | succ i =>
      cases j with
      | zero => rfl
      | succ j => simpa [updateAt] using ih (fun hij => h (by omega))

theorem getD_eq_get?_getD (l : List α) (n : Nat) (d : α) :
    l.getD n d = (l.get? n).getD d := by
  induction l generalizing n with
  | nil => cases n <;> rfl
  | cons c t ih => cases n with
    | zero => rfl
    | succ n => simp [ih n]

theorem getD_updateAt_field (l : List α) (i j : Nat) (f : α → α) (d : α)
    (g : α → β) (hf : ∀ c, g (f c) = g c) :
    g ((updateAt l i f).getD j d) = g (l.getD j d) := by
  rcases eq_or_ne i j with rfl | hij
  · simp only [getD_eq_get?_getD, get?_updateAt_self]
    cases h : l.get? i with
    | none => simp [h]
    | some c => simp [h, hf]
  · rw [getD_eq_get?_getD, getD_eq_get?_getD, get?_updateAt_ne _ _ hij]

theorem countP_updateAt_pres (p : α → Bool) (f : α → α) (l : List α) (i : Nat)
    (h : ∀ c, p (f c) = p c) :
    (updateAt l i f).countP p = l.countP p := by
  induction l generalizing i with
  | nil => rfl
  | cons c t ih =>
    cases i with
    | zero => simp [updateAt, List.countP_cons, h]
    | succ i => simp [updateAt, List.countP_cons, ih]

theorem countP_updateAt_le_of_neg (p : α → Bool) (f : α → α) (l : List α) (i : Nat)
    (h : ∀ c, p (f c) = false) :
    (updateAt l i f).countP p ≤ l.countP p := by
  induction l generalizing i with
  | nil => exact Nat.le_refl _
  | cons c t ih =>
    cases i with
    | zero => simp [updateAt, List.countP_cons, h]
    | succ i =>
      simp only [updateAt, List.countP_cons]
      have := ih (i := i)
      omega

theorem countP_updateAt_le_succ (l : List α) (i : Nat) (f : α → α) :
    (updateAt l i f).countP p ≤ l.countP p + 1 := by
  induction l generalizing i with
  | nil => simp [updateAt]
  | cons c t ih =>
    cases i with
    | zero => simp [updateAt, List.countP_cons]; split <;> split <;> omega
    | succ i =>
      simp only [updateAt, List.countP_cons]
      have := ih (i := i)
      omega

theorem findIdx?_updateAt_pres (p : α → Bool) (f : α → α) (l : List α) (i : Nat)
    (h : ∀ c, p (f c) = p c) :
    ∀ s, (updateAt l i f).findIdx? p s = l.findIdx? p s := by
  induction l generalizing i with
  | nil => intro s; cases i <;> rfl
  | cons c t ih =>
    intro s
    cases i with
    | zero => simp [updateAt, List.findIdx?_cons, h]
    | succ i => simp [updateAt, List.findIdx?_cons, ih]

end UpdateAtLemmas

section KeepNotLemmas

variable {α : Type}

/-- Erasing shifted indices below a fixed head leaves the head alone. -/
theorem foldl_eraseIdx_map_succ (is : List Nat) :
    ∀ (c : α) (t : List α),
      (is.map Nat.succ).foldl (fun acc i => acc.eraseIdx i) (c :: t)
        = c :: is.foldl (fun acc i => acc.eraseIdx i) t := by
  induction is with
  | nil => intro c t; rfl
  | cons i is ih =>
    intro c t
    simp only [List.map_cons, List.foldl_cons, List.eraseIdx_cons_succ]
    exact ih c (t.eraseIdx i)

/-- The descending-order `eraseIdx` loop of `deleteCell` removes exactly
the positions selected by the predicate. -/
theorem eraseFold_eq_keepNot (l : List α) :
    ∀ q : Nat → Bool,
      (((List.range l.length).filter q).reverse).foldl
          (fun acc i => acc.eraseIdx i) l
        = keepNot q l := by
  induction l with
  | nil => intro q; rfl
  | cons c t ih =>
    intro q
    rw [List.length_cons, List.range_succ_eq_map]
    cases hq : q 0 with
    | true =>
      rw [List.filter_cons_of_pos (by simpa using hq), List.reverse_cons,
        List.filter_map, List.foldl_append]
      have hrev : (List.map Nat.succ ((List.range t.length).filter (q ∘ Nat.succ))).reverse
          = (((List.range t.length).filter (q ∘ Nat.succ)).reverse).map Nat.succ := by
        rw [List.map_reverse]
      rw [hrev, foldl_eraseIdx_map_succ]
      simp only [List.foldl_cons, List.eraseIdx_cons_zero, List.foldl_nil]
      rw [ih (q ∘ Nat.succ)]
      simp only [keepNot, hq, if_true]
      rfl
    | false =>
      rw [List.filter_cons_of_neg (by simpa using hq), List.filter_map]
      have hrev : (List.map Nat.succ ((List.range t.length).filter (q ∘ Nat.succ))).reverse
          = (((List.range t.length).filter (q ∘ Nat.succ)).reverse).map Nat.succ := by
        rw [List.map_reverse]
      rw [hrev, foldl_eraseIdx_map_succ, ih (q ∘ Nat.succ)]
      simp only [keepNot, hq, Bool.false_eq_true, if_false]
      rfl

theorem mem_of_mem_keepNot {c : α} :
    ∀ (q : Nat → Bool) (l : List α), c ∈ keepNot q l → c ∈ l := by
  intro q l
  induction l generalizing q with
  | nil => simp [keepNot]
  | cons d t ih =>
    intro h
    by_cases hq : q 0 = true
    · simp only [keepNot, if_pos hq] at h
      exact List.mem_cons_of_mem d (ih _ h)
    · simp only [keepNot, if_neg hq] at h
      rcases List.mem_cons.mp h with rfl | h
      · exact List.mem_cons_self _ _
      · exact List.mem_cons_of_mem d (ih _ h)

/-- If the predicate selects every position holding `g`, then `g` does
not survive the erasure. -/
theorem not_mem_keepNot {g : α} :
    ∀ (q : Nat → Bool) (l : List α),
      (∀ i (hi : i < l.length), l.get ⟨i, hi⟩ = g → q i = true) →
      g ∉ keepNot q l := by
  intro q l
  induction l generalizing q with
  | nil => simp [keepNot]
  | cons c t ih =>
    intro h
    by_cases hq : q 0 = true
    · simp only [keepNot, if_pos hq]
      exact ih _ (fun i hi hget => h (i + 1) (Nat.succ_lt_succ hi) hget)
    · simp only [keepNot, if_neg hq]
      intro hmem
      rcases List.mem_cons.mp hmem with rfl | hmem
      · exact hq (h 0 (Nat.succ_pos _) rfl)
      · exact ih _ (fun i hi hget => h (i + 1) (Nat.succ_lt_succ hi) hget) hmem

/-- If the predicate selects nothing inside the list, the erasure is the
identity. -/
theorem keepNot_eq_self {α : Type} :
    ∀ (q : Nat → Bool) (l : List α),
      (∀ i, i < l.length → q i = false) → keepNot q l = l := by
  intro q l
  induction l generalizing q with
  | nil => intro _; rfl
  | cons c t ih =>
    intro h
    have hq : q 0 = false := h 0 (Nat.succ_pos _)
    simp only [keepNot, hq, Bool.false_eq_true, if_false]
    rw [ih _ (fun i hi => h (i + 1) (Nat.succ_lt_succ hi))]

end KeepNotLemmas

section DeleteCellLemmas

/-- The widget list after `deleteCell`: exactly the positions that are
deletable occurrences of the cell are removed. -/
theorem deleteCell_widgets (notebook : Notebook) (cell : Cell) :
    (deleteCell notebook cell).widgets
      = keepNot (deletableOccurrence notebook cell) notebook.widgets := by
  unfold deleteCell
  by_cases h : (toDeleteIndices notebook cell).isEmpty
  · simp only [h, if_true]
    have hnil : toDeleteIndices notebook cell = [] := by
      simpa [List.isEmpty_iff] using h
    have hq : ∀ i, i < notebook.widgets.length →
        deletableOccurrence notebook cell i = false := by
      intro i hi
      have := List.filter_eq_nil_iff.mp hnil i (List.mem_range.mpr hi)
      simpa using this
    rw [keepNot_eq_self _ _ hq]
  · simp only [h, if_false]
    exact eraseFold_eq_keepNot notebook.widgets (deletableOccurrence notebook cell)

/-- `deleteCell` does not change the active index when nothing was
deletable, and otherwise sets it from the reversed `toDelete` list. -/
theorem deleteCell_active_of_ne (notebook : Notebook) (cell : Cell)
    (h : toDeleteIndices notebook cell ≠ []) :
    (deleteCell notebook cell).activeCellIndex
      = ((toDeleteIndices notebook cell).reverse).headD 0 + 1
        - (toDeleteIndices notebook cell).length := by
  unfold deleteCell
  have h' : (toDeleteIndices notebook cell).isEmpty = false := by
    simpa [List.isEmpty_iff] using h
  simp [h']

end DeleteCellLemmas

section SelectLemmas

theorem selectBelow_widgets (nb : Notebook) : (selectBelow nb).widgets = nb.widgets := by
  unfold selectBelow; split <;> rfl

theorem selectBelow_deletedCells (nb : Notebook) :
    (selectBelow nb).deletedCells = nb.deletedCells := by
  unfold selectBelow; split <;> rfl

theorem selectAbove_widgets (nb : Notebook) : (selectAbove nb).widgets = nb.widgets := by
  unfold selectAbove; split <;> rfl

theorem selectAbove_deletedCells (nb : Notebook) :
    (selectAbove nb).deletedCells = nb.deletedCells := by
  unfold selectAbove; split <;> rfl

theorem foldl_stepDown_widgets (w : List Cell) (is : List Nat) :
    ∀ st : Notebook,
      (is.foldl (fun acc i =>
        if (w.getD i dummyCell).inputHidden then acc else selectBelow acc) st).widgets
      = st.widgets := by
  induction is with
  | nil => intro st; rfl
  | cons i is ih =>
    intro st
    simp only [List.foldl_cons]
    by_cases h : (w.getD i dummyCell).inputHidden
    · rw [if_pos h]; exact ih st
    · rw [if_neg h, ih (selectBelow st), selectBelow_widgets]

theorem foldl_stepDown_deletedCells (w : List Cell) (is : List Nat) :
    ∀ st : Notebook,
      (is.foldl (fun acc i =>
        if (w.getD i dummyCell).inputHidden then acc else selectBelow acc) st).deletedCells
      = st.deletedCells := by
  induction is with
  | nil => intro st; rfl
  | cons i is ih =>
    intro st
    simp only [List.foldl_cons]
    by_cases h : (w.getD i dummyCell).inputHidden
    · rw [if_pos h]; exact ih st
    · rw [if_neg h, ih (selectBelow st), selectBelow_deletedCells]

theorem foldl_stepUp_widgets (w : List Cell) (is : List Nat) :
    ∀ st : Notebook,
      (is.foldl (fun acc i =>
        if (w.getD i dummyCell).inputHidden then acc else selectAbove acc) st).widgets
      = st.widgets := by
  induction is with
  | nil => intro st; rfl
  | cons i is ih =>
    intro st
    simp only [List.foldl_cons]
    by_cases h : (w.getD i dummyCell).inputHidden
    · rw [if_pos h]; exact ih st
    · rw [if_neg h, ih (selectAbove st), selectAbove_widgets]

theorem foldl_stepUp_deletedCells (w : List Cell) (is : List Nat) :
    ∀ st : Notebook,
      (is.foldl (fun acc i =>
        if (w.getD i dummyCell).inputHidden then acc else selectAbove acc) st).deletedCells
      = st.deletedCells := by
  induction is with
  | nil => intro st; rfl
  | cons i is ih =>
    intro st
    simp only [List.foldl_cons]
    by_cases h : (w.getD i dummyCell).inputHidden
    · rw [if_pos h]; exact ih st
    · rw [if_neg h, ih (selectAbove st), selectAbove_deletedCells]

theorem foldl_stepDown_active (w : List Cell) (is : List Nat) :
    ∀ st : Notebook, st.widgets = w →
      st.activeCellIndex
          + is.countP (fun i => !(w.getD i dummyCell).inputHidden) < w.length →
      (is.foldl (fun acc i =>
        if (w.getD i dummyCell).inputHidden then acc else selectBelow acc) st).activeCellIndex
      = st.activeCellIndex + is.countP (fun i => !(w.getD i dummyCell).inputHidden) := by
  induction is with
  | nil => intro st _ _; simp
  | cons i is ih =>
    intro st hw hbound
    rw [List.countP_cons] at hbound ⊢
    by_cases h : (w.getD i dummyCell).inputHidden = true
    · have hc : (if (!(w.getD i dummyCell).inputHidden) = true then 1 else 0) = 0 := by
        rw [h]; simp
      rw [hc] at hbound ⊢
      simp only [List.foldl_cons]
      rw [if_pos h, Nat.add_zero] at *
      exact ih st hw (by omega)
    · have hfalse : (w.getD i dummyCell).inputHidden = false := by
        cases hx : (w.getD i dummyCell).inputHidden with
        | true => exact absurd hx h
        | false => rfl
      have hc : (if (!(w.getD i dummyCell).inputHidden) = true then 1 else 0) = 1 := by
        rw [hfalse]; simp
      rw [hc] at hbound ⊢
      simp only [List.foldl_cons]
      rw [if_neg h]
      have hlt : st.activeCellIndex + 1 < st.widgets.length := by
        rw [hw]; omega
      have hsel : (selectBelow st).activeCellIndex = st.activeCellIndex + 1 := by
        unfold selectBelow; rw [if_pos hlt]
      rw [ih (selectBelow st) (by rw [selectBelow_widgets, hw]) (by rw [hsel]; omega),
        hsel]
      omega

theorem foldl_stepUp_active (w : List Cell) (is : List Nat) :
    ∀ st : Notebook, st.widgets = w →
      is.countP (fun i => !(w.getD i dummyCell).inputHidden) ≤ st.activeCellIndex →
      (is.foldl (fun acc i =>
        if (w.getD i dummyCell).inputHidden then acc else selectAbove acc) st).activeCellIndex
      = st.activeCellIndex - is.countP (fun i => !(w.getD i dummyCell).inputHidden) := by
  induction is with
  | nil => intro st _ _; simp
  | cons i is ih =>
    intro st hw hbound
    rw [List.countP_cons] at hbound ⊢
    by_cases h : (w.getD i dummyCell).inputHidden = true
    · have hc : (if (!(w.getD i dummyCell).inputHidden) = true then 1 else 0) = 0 := by
        rw [h]; simp
      rw [hc] at hbound ⊢
      simp only [List.foldl_cons]
      rw [if_pos h, Nat.add_zero] at *
      exact ih st hw (by omega)
    · have hfalse : (w.getD i dummyCell).inputHidden = false := by
        cases hx : (w.getD i dummyCell).inputHidden with
        | true => exact absurd hx h
        | false => rfl
      have hc : (if (!(w.getD i dummyCell).inputHidden) = true then 1 else 0) = 1 := by
        rw [hfalse]; simp
      rw [hc] at hbound ⊢
      simp only [List.foldl_cons]
      rw [if_neg h]
      have hpos : 0 < st.activeCellIndex := by omega
      have hsel : (selectAbove st).activeCellIndex = st.activeCellIndex - 1 := by
        unfold selectAbove; rw [if_pos hpos]
      rw [ih (selectAbove st) (by rw [selectAbove_widgets, hw]) (by rw [hsel]; omega),
        hsel]
      omega

theorem selectCellById_widgets (nb : Notebook) (id : String) :
    (selectCellById nb id).widgets = nb.widgets := by
  unfold selectCellById
  cases h : findCellIndexById nb id with
  | none => rfl
  | some t =>
    by_cases he : nb.activeCellIndex = t
    · simp [he]
    · by_cases hlt : nb.activeCellIndex < t
      · simp only [he, hlt, if_true, if_neg he]
        exact foldl_stepDown_widgets nb.widgets _ nb
      · simp only [he, hlt, if_false, if_neg he]
        exact foldl_stepUp_widgets nb.widgets _ nb

theorem selectCellById_deletedCells (nb : Notebook) (id : String) :
    (selectCellById nb id).deletedCells = nb.deletedCells := by
  unfold selectCellById
  cases h : findCellIndexById nb id with
  | none => rfl
  | some t =>
    by_cases he : nb.activeCellIndex = t
    · simp [he]
    · by_cases hlt : nb.activeCellIndex < t
      · simp only [he, hlt, if_true, if_neg he]
        exact foldl_stepDown_deletedCells nb.widgets _ nb
      · simp only [he, hlt, if_false, if_neg he]
        exact foldl_stepUp_deletedCells nb.widgets _ nb

theorem findCellIndexById_lt (nb : Notebook) (id : String) {t : Nat}
    (h : findCellIndexById nb id = some t) : t < nb.widgets.length :=
  (List.findIdx?_eq_some_iff_findIdx_eq.mp h).1

theorem selectCellById_none (nb : Notebook) (id : String)
    (h : findCellIndexById nb id = none) : selectCellById nb id = nb := by
  unfold selectCellById
  rw [h]

theorem selectCellById_already_active (nb : Notebook) (id : String) {t : Nat}
    (h : findCellIndexById nb id = some t) (he : nb.activeCellIndex = t) :
    selectCellById nb id = nb := by
  unfold selectCellById
  rw [h]
  simp [he]

theorem selectCellById_active_down (nb : Notebook) (id : String) {t : Nat}
    (h : findCellIndexById nb id = some t) (hlt : nb.activeCellIndex < t) :
    (selectCellById nb id).activeCellIndex
      = nb.activeCellIndex + visibleStepsDown nb nb.activeCellIndex t := by
  have ht : t < nb.widgets.length := findCellIndexById_lt nb id h
  have hcnt : (List.range' nb.activeCellIndex (t - nb.activeCellIndex)).countP
      (fun i => !(nb.widgets.getD i dummyCell).inputHidden) ≤ t - nb.activeCellIndex := by
    calc _ ≤ (List.range' nb.activeCellIndex (t - nb.activeCellIndex)).length :=
          List.countP_le_length _
    _ = t - nb.activeCellIndex := by simp
  unfold selectCellById
  rw [h]
  simp only [if_neg (Nat.ne_of_lt hlt), if_pos hlt]
  exact foldl_stepDown_active nb.widgets _ nb rfl (by omega)

theorem selectCellById_active_up (nb : Notebook) (id : String) {t : Nat}
    (h : findCellIndexById nb id = some t) (hgt : t < nb.activeCellIndex) :
    (selectCellById nb id).activeCellIndex
      = nb.activeCellIndex - visibleStepsUp nb t nb.activeCellIndex := by
  have hcnt : ((List.range' (t + 1) (nb.activeCellIndex - t)).reverse).countP
      (fun i => !(nb.widgets.getD i dummyCell).inputHidden) ≤ nb.activeCellIndex := by
    calc _ ≤ ((List.range' (t + 1) (nb.activeCellIndex - t)).reverse).length :=
          List.countP_le_length _
    _ = nb.activeCellIndex - t := by simp
    _ ≤ nb.activeCellIndex := Nat.sub_le _ _
  unfold selectCellById
  rw [h]
  simp only [if_neg (Nat.ne_of_gt hgt), if_neg (Nat.not_lt.mpr (Nat.le_of_lt hgt))]
  rw [foldl_stepUp_active nb.widgets _ nb rfl hcnt]
  unfold visibleStepsUp
  rw [List.countP_reverse]

end SelectLemmas

section FindLemmas

theorem get?_eq_getD_of_lt {α : Type} (l : List α) (d : α) {j : Nat}
    (h : j < l.length) : l.get? j = some (l.getD j d) := by
  cases hx : l.get? j with
  | none =>
    have := List.get?_eq_none.mp hx
    omega
  | some c => rw [getD_eq_get?_getD, hx]; rfl

theorem map_updateAt_pres {α β : Type} (l : List α) (i : Nat) (f : α → α)
    (g : α → β) (h : ∀ c, g (f c) = g c) :
    (updateAt l i f).map g = l.map g := by
  induction l generalizing i with
  | nil => rfl
  | cons c t ih =>
    cases i with
    | zero => simp [updateAt, h]
    | succ i => simp [updateAt, ih]

theorem findTemplate_lt (nb : Notebook) (eid : Option Nat) {j : Nat}
    (h : findCellByTemplateStringIdx nb eid = some j) : j < nb.widgets.length := by
  cases eid with
  | none => cases h
  | some n =>
    simp only [findCellByTemplateStringIdx] at h
    by_cases hn : n = 0
    · rw [if_pos hn] at h; cases h
    · rw [if_neg hn] at h
      exact (List.findIdx?_eq_some_iff_findIdx_eq.mp h).1

theorem findTemplate_setMeta (nb : Notebook) (k : Nat)
    (m : ChapyterCellMetadata) (eid : Option Nat) :
    findCellByTemplateStringIdx (setChapyterMetadata nb k m) eid
      = findCellByTemplateStringIdx nb eid := by
  cases eid with
  | none => rfl
  | some n =>
    simp only [findCellByTemplateStringIdx, setChapyterMetadata]
    by_cases hn : n = 0
    · rw [if_pos hn, if_pos hn]
    · rw [if_neg hn, if_neg hn]
      have hpres : ∀ c : Cell,
          ((withMeta m c).isCode
            && strStartsWith (firstLineOf (withMeta m c).source) (searchTempalte n))
          = (c.isCode && strStartsWith (firstLineOf c.source) (searchTempalte n)) :=
        fun c => rfl
      exact findIdx?_updateAt_pres
        (fun cell =>
          cell.isCode && strStartsWith (firstLineOf cell.source) (searchTempalte n))
        (withMeta m) nb.widgets k hpres 0

theorem findCellIndexById_of_nodup (nb : Notebook) {j : Nat} {c : Cell}
    (hnodup : (nb.widgets.map (fun x => x.id)).Nodup)
    (hj : nb.widgets.get? j = some c) :
    findCellIndexById nb c.id = some j := by
  have hjlt : j < nb.widgets.length := by
    by_contra hle
    rw [List.get?_eq_none.mpr (by omega)] at hj
    cases hj
  have hget : nb.widgets[j] = c := by
    rw [List.get?_eq_get hjlt] at hj
    exact Option.some.inj hj
  unfold findCellIndexById
  rw [List.findIdx?_eq_some_iff_getElem]
  refine ⟨hjlt, by rw [hget]; simp, ?_⟩
  intro i hij habs
  have hilt : i < nb.widgets.length := Nat.lt_trans hij hjlt
  have hid : (nb.widgets[i]).id = c.id := of_decide_eq_true habs
  have hinj := List.nodup_iff_injective_get.mp hnodup
  have heq : (nb.widgets.map (fun x => x.id)).get ⟨i, by simp [hilt]⟩
      = (nb.widgets.map (fun x => x.id)).get ⟨j, by simp [hjlt]⟩ := by
    simp only [List.get_eq_getElem, List.getElem_map]
    rw [hget, hid]
  have hfin := hinj heq
  have hij' : i = j := by
    have := congrArg Fin.val hfin
    simpa using this
  omega

theorem le_getLast_of_sorted :
    ∀ (l : List Nat), l.Pairwise (· < ·) → ∀ (h : l ≠ []) (x : Nat),
      x ∈ l → x ≤ l.getLast h := by
  intro l
  induction l with
  | nil => intro _ h; exact absurd rfl h
  | cons a t ih =>
    intro hp h x hx
    cases t with
    | nil =>
      rcases List.mem_singleton.mp hx with rfl
      simp
    | cons b t' =>
      rw [List.getLast_cons (by simp)]
      rcases List.mem_cons.mp hx with rfl | hx'
      · have hall := (List.pairwise_cons.mp hp).1
        have hlt : x < (b :: t').getLast (by simp) :=
          hall _ (List.getLast_mem (by simp))
        omega
      · exact ih (List.pairwise_cons.mp hp).2 (by simp) x hx'

theorem toDeleteIndices_sorted (nb : Notebook) (cell : Cell) :
    (toDeleteIndices nb cell).Pairwise (· < ·) :=
  List.Pairwise.filter _ (List.pairwise_lt_range _)

theorem reverse_headD_eq_getLast (l : List Nat) (h : l ≠ []) :
    l.reverse.headD 0 = l.getLast h := by
  rw [List.headD_eq_head?_getD, List.head?_reverse,
    List.getLast?_eq_getLast l h]
  rfl

end FindLemmas

section CountGenLemmas

theorem countGenLinked_setMeta_le_succ (nb : Notebook) (k : Nat)
    (m : ChapyterCellMetadata) (tid : String) :
    countGenLinked (setChapyterMetadata nb k m) tid ≤ countGenLinked nb tid + 1 := by
  unfold countGenLinked setChapyterMetadata
  exact countP_updateAt_le_succ _ _ _

theorem countGenLinked_setMeta_original_le (nb : Notebook) (k : Nat)
    (x : Option String) (tid : String) :
    countGenLinked
        (setChapyterMetadata nb k ⟨x, ChapyterCellType.original⟩) tid
      ≤ countGenLinked nb tid := by
  unfold countGenLinked setChapyterMetadata
  exact countP_updateAt_le_of_neg _ _ _ _ (fun c => by simp [isGenLinkedTo, withMeta])

theorem countGenLinked_setInputHidden (nb : Notebook) (k : Nat) (b : Bool)
    (tid : String) :
    countGenLinked (setInputHidden nb k b) tid = countGenLinked nb tid := by
  unfold countGenLinked setInputHidden
  exact countP_updateAt_pres _ _ _ _ (fun c => rfl)

theorem countGenLinked_selectCellById (nb : Notebook) (id tid : String) :
    countGenLinked (selectCellById nb id) tid = countGenLinked nb tid := by
  unfold countGenLinked
  rw [selectCellById_widgets]

theorem countGenLinked_selectBelow (nb : Notebook) (tid : String) :
    countGenLinked (selectBelow nb) tid = countGenLinked nb tid := by
  unfold countGenLinked
  rw [selectBelow_widgets]

end CountGenLemmas

section HandlerLemmas

theorem executedHandler_not_magic (nb : Notebook) (it : Nat) (s : Bool)
    (h : (isCellChapyterMagicCell (nb.widgets.getD it dummyCell) true
        && isCellNotGenerated (nb.widgets.getD it dummyCell)) = false) :
    executedHandler nb it s = (nb, []) := by
  cases s with
  | false => rfl
  | true =>
    simp only [executedHandler, h]
    simp

theorem executedHandler_found (nb : Notebook) (it : Nat) (t : Cell) {j : Nat}
    (hget : nb.widgets.getD it dummyCell = t)
    (hguard : (isCellChapyterMagicCell t true && isCellNotGenerated t) = true)
    (hfind : findCellByTemplateStringIdx nb t.executionCount = some j) :
    executedHandler nb it true
      = executedLinkStep
          (if t.chapyterMetadata = none
            then setChapyterMetadata nb it ⟨none, ChapyterCellType.original⟩
            else nb)
          it t (isCellChapyterMagicCellSafeMode t) j := by
  simp only [executedHandler, hget, hguard, if_true]
  by_cases hmeta : t.chapyterMetadata = none
  · rw [if_pos hmeta, findTemplate_setMeta, hfind]
  · rw [if_neg hmeta, hfind]

theorem executedHandler_no_assist (nb : Notebook) (it : Nat) (t : Cell)
    (hget : nb.widgets.getD it dummyCell = t)
    (hfind : findCellByTemplateStringIdx nb t.executionCount = none)
    (hmeta : t.chapyterMetadata ≠ none) :
    executedHandler nb it true = (nb, []) := by
  simp only [executedHandler, hget]
  by_cases hguard : (isCellChapyterMagicCell t true && isCellNotGenerated t) = true
  · rw [hguard, if_neg hmeta, hfind]
    simp
  · have : (isCellChapyterMagicCell t true && isCellNotGenerated t) = false := by
      cases hx : (isCellChapyterMagicCell t true && isCellNotGenerated t) with
      | true => exact absurd hx hguard
      | false => rfl
    rw [this]
    simp

theorem scheduledHandler_found (nb : Notebook) (it : Nat) (t g : Cell)
    (gid : String)
    (hget : nb.widgets.getD it dummyCell = t)
    (hguard : (isCellChapyterMagicCell t false && isCellNotGenerated t) = true)
    (hlink : t.chapyterMetadata.bind (fun m => m.linkedCellId) = some gid)
    (hfound : findCellById nb gid = some g) :
    executionScheduledHandler nb it = selectCellById (deleteCell nb g) t.id := by
  simp only [executionScheduledHandler, hget, hguard, if_true, hlink, hfound]

theorem scheduledHandler_not_magic (nb : Notebook) (it : Nat)
    (h : (isCellChapyterMagicCell (nb.widgets.getD it dummyCell) false
        && isCellNotGenerated (nb.widgets.getD it dummyCell)) = false) :
    executionScheduledHandler nb it = nb := by
  simp only [executionScheduledHandler, h]
  simp

end HandlerLemmas

section StrLemmas

theorem listIsPrefix_trans :
    ∀ (p q r : List Char), listIsPrefix p q = true → listIsPrefix q r = true →
      listIsPrefix p r = true := by
  intro p
  induction p with
  | nil => intro q r _ _; rfl
  | cons a as ih =>
    intro q r hpq hqr
    cases q with
    | nil => simp [listIsPrefix] at hpq
    | cons b bs =>
      cases r with
      | nil => simp [listIsPrefix] at hqr
      | cons c cs =>
        simp only [listIsPrefix] at hpq hqr ⊢
        by_cases hab : a = b
        · rw [if_pos hab] at hpq
          by_cases hbc : b = c
          · rw [if_pos hbc] at hqr
            rw [if_pos (hab.trans hbc)]
            exact ih bs cs hpq hqr
          · rw [if_neg hbc] at hqr
            cases hqr
        · rw [if_neg hab] at hpq
          cases hpq

end StrLemmas

section ScheduledLemmas

/-- When the scheduled handler runs on a linked trigger whose linked
cell is deletable, the linked cell is gone afterwards, and every
surviving cell already was in the notebook. -/
theorem scheduled_deletes_linked (nb : Notebook) (it : Nat) (t g : Cell)
    (gid : String)
    (hget : nb.widgets.getD it dummyCell = t)
    (hguard : (isCellChapyterMagicCell t false && isCellNotGenerated t) = true)
    (hlink : t.chapyterMetadata.bind (fun m => m.linkedCellId) = some gid)
    (hfound : findCellById nb gid = some g)
    (hdel : g.deletable = true) :
    g ∉ (executionScheduledHandler nb it).widgets
    ∧ ∀ c ∈ (executionScheduledHandler nb it).widgets, c ∈ nb.widgets := by
  have hw : (executionScheduledHandler nb it).widgets
      = keepNot (deletableOccurrence nb g) nb.widgets := by
    rw [scheduledHandler_found nb it t g gid hget hguard hlink hfound,
      selectCellById_widgets, deleteCell_widgets]
  constructor
  · rw [hw]
    apply not_mem_keepNot
    intro i hi hgeti
    unfold deletableOccurrence
    have hgd : nb.widgets.getD i dummyCell = g := by
      rw [getD_eq_get?_getD, List.get?_eq_get hi, hgeti]
      rfl
    rw [hgd, hdel]
    simp
  · rw [hw]
    intro c hc
    exact mem_of_mem_keepNot _ _ hc

end ScheduledLemmas

section LinkStepLemmas

/-- `executedLinkStep` in safe mode: the assistance cell is tagged, the
cursor walks to it once, the trigger is tagged, no command is issued. -/
theorem executedLinkStep_safe (nb1 : Notebook) (it : Nat) (t : Cell) (j : Nat) :
    executedLinkStep nb1 it t true j
      = (setChapyterMetadata
          (selectCellById
            (setChapyterMetadata nb1 j ⟨some t.id, ChapyterCellType.generated⟩)
            ((nb1.widgets.getD j dummyCell).id))
          it ⟨some (nb1.widgets.getD j dummyCell).id, ChapyterCellType.original⟩,
        []) := by
  unfold executedLinkStep
  simp

/-- `executedLinkStep` outside safe mode: additionally the input of the
assistance cell is hidden, the cursor steps below it, and a run request
is issued. -/
theorem executedLinkStep_run (nb1 : Notebook) (it : Nat) (t : Cell) (j : Nat) :
    executedLinkStep nb1 it t false j
      = (setChapyterMetadata
          (selectBelow (selectCellById
            (setInputHidden
              (selectCellById
                (setChapyterMetadata nb1 j ⟨some t.id, ChapyterCellType.generated⟩)
                ((nb1.widgets.getD j dummyCell).id))
              j true)
            ((nb1.widgets.getD j dummyCell).id)))
          it ⟨some (nb1.widgets.getD j dummyCell).id, ChapyterCellType.original⟩,
        [Effect.runRequested]) := by
  unfold executedLinkStep
  simp

/-- Widget list of `executedLinkStep` outside safe mode, as three
in-place updates. -/
theorem linkStep_widgets_run (nb1 : Notebook) (it : Nat) (t : Cell) (j : Nat) :
    (executedLinkStep nb1 it t false j).1.widgets
      = updateAt (updateAt (updateAt nb1.widgets j
          (withMeta ⟨some t.id, ChapyterCellType.generated⟩))
          j (withHidden true))
          it (withMeta ⟨some (nb1.widgets.getD j dummyCell).id,
                ChapyterCellType.original⟩) := by
  rw [executedLinkStep_run]
  show (setChapyterMetadata _ _ _).widgets = _
  unfold setChapyterMetadata setInputHidden
  simp only [selectBelow_widgets, selectCellById_widgets]

/-- Widget list of `executedLinkStep` in safe mode, as two in-place
updates. -/
theorem linkStep_widgets_safe (nb1 : Notebook) (it : Nat) (t : Cell) (j : Nat) :
    (executedLinkStep nb1 it t true j).1.widgets
      = updateAt (updateAt nb1.widgets j
          (withMeta ⟨some t.id, ChapyterCellType.generated⟩))
          it (withMeta ⟨some (nb1.widgets.getD j dummyCell).id,
                ChapyterCellType.original⟩) := by
  rw [executedLinkStep_safe]
  show (setChapyterMetadata _ _ _).widgets = _
  unfold setChapyterMetadata
  simp only [selectCellById_widgets]

/-- After `executedLinkStep`, the trigger position holds the original
cell with its metadata overwritten by the link record. -/
theorem linkStep_get_it (nb1 : Notebook) (it : Nat) (t : Cell) (safe : Bool)
    {j : Nat} (hne : it ≠ j) :
    (executedLinkStep nb1 it t safe j).1.widgets.get? it
      = (nb1.widgets.get? it).map
          (withMeta ⟨some (nb1.widgets.getD j dummyCell).id,
            ChapyterCellType.original⟩) := by
  cases safe with
  | false =>
    rw [linkStep_widgets_run, get?_updateAt_self,
      get?_updateAt_ne _ _ (Ne.symm hne), get?_updateAt_ne _ _ (Ne.symm hne)]
  | true =>
    rw [linkStep_widgets_safe, get?_updateAt_self,
      get?_updateAt_ne _ _ (Ne.symm hne)]

/-- After `executedLinkStep`, the assistance position holds the
assistance cell tagged generated-and-linked, its input hidden exactly
outside safe mode. -/
theorem linkStep_get_j (nb1 : Notebook) (it : Nat) (t : Cell) (safe : Bool)
    {j : Nat} (hne : it ≠ j) (hj : j < nb1.widgets.length) :
    (executedLinkStep nb1 it t safe j).1.widgets.get? j
      = some (withHidden
          (if safe then (nb1.widgets.getD j dummyCell).inputHidden else true)
          (withMeta ⟨some t.id, ChapyterCellType.generated⟩
            (nb1.widgets.getD j dummyCell))) := by
  cases safe with
  | false =>
    rw [linkStep_widgets_run, get?_updateAt_ne _ _ hne, get?_updateAt_self,
      get?_updateAt_self, get?_eq_getD_of_lt _ dummyCell hj]
    rfl
  | true =>
    rw [linkStep_widgets_safe, get?_updateAt_ne _ _ hne, get?_updateAt_self,
      get?_eq_getD_of_lt _ dummyCell hj]
    rfl

/-- `executedLinkStep` in safe mode issues no command, leaves the
assistance cell's input visibility unchanged, and (when no loop
position on the cursor's path is hidden) parks the cursor exactly on
the assistance cell. -/
theorem linkStep_safe_props (X : Notebook) (it : Nat) (t : Cell) {j : Nat}
    (hj : j < X.widgets.length)
    (hnodup : (X.widgets.map (fun x => x.id)).Nodup)
    (hvis : ∀ i ∈ List.range' (min X.activeCellIndex j)
        (max X.activeCellIndex j + 1 - min X.activeCellIndex j),
        (X.widgets.getD i dummyCell).inputHidden = false) :
    (executedLinkStep X it t true j).2 = []
    ∧ (executedLinkStep X it t true j).1.activeCellIndex = j
    ∧ ((executedLinkStep X it t true j).1.widgets.getD j dummyCell).inputHidden
        = (X.widgets.getD j dummyCell).inputHidden := by
  have heq := executedLinkStep_safe X it t j
  set a := X.widgets.getD j dummyCell with ha
  set nb2 := setChapyterMetadata X j ⟨some t.id, ChapyterCellType.generated⟩
    with hnb2
  have hW2 : nb2.widgets = updateAt X.widgets j
      (withMeta ⟨some t.id, ChapyterCellType.generated⟩) := rfl
  have hA2 : nb2.activeCellIndex = X.activeCellIndex := rfl
  have hget2 : nb2.widgets.get? j
      = some (withMeta ⟨some t.id, ChapyterCellType.generated⟩ a) := by
    rw [hW2, get?_updateAt_self, get?_eq_getD_of_lt _ dummyCell hj]
    rfl
  have hnodup2 : (nb2.widgets.map (fun x => x.id)).Nodup := by
    rw [hW2, map_updateAt_pres X.widgets j
      (withMeta ⟨some t.id, ChapyterCellType.generated⟩) (fun x => x.id)
      (fun c => rfl)]
    exact hnodup
  have hfind2' : findCellIndexById nb2
      (withMeta ⟨some t.id, ChapyterCellType.generated⟩ a).id = some j :=
    findCellIndexById_of_nodup nb2 hnodup2 hget2
  have hfind2 : findCellIndexById nb2 a.id = some j := hfind2'
  have hhid2 : ∀ i, (nb2.widgets.getD i dummyCell).inputHidden
      = (X.widgets.getD i dummyCell).inputHidden := by
    intro i
    rw [hW2]
    exact getD_updateAt_field X.widgets j i
      (withMeta ⟨some t.id, ChapyterCellType.generated⟩) dummyCell
      (fun c => c.inputHidden) (fun c => rfl)
  have hactive : (selectCellById nb2 a.id).activeCellIndex = j := by
    rcases Nat.lt_trichotomy nb2.activeCellIndex j with hlt | heqa | hgt
    · have hdown := selectCellById_active_down nb2 a.id hfind2 hlt
      have hcnt : visibleStepsDown nb2 nb2.activeCellIndex j
          = j - nb2.activeCellIndex := by
        unfold visibleStepsDown
        rw [List.countP_eq_length.mpr, List.length_range']
        intro i hi
        have hb := List.mem_range'_1.mp hi
        have hxv : (X.widgets.getD i dummyCell).inputHidden = false := by
          apply hvis
          rw [List.mem_range'_1]
          rw [hA2] at hb hlt
          omega
        rw [hhid2 i, hxv]
        rfl
      rw [hdown, hcnt]
      omega
    · rw [selectCellById_already_active nb2 a.id hfind2 heqa]
      rw [hA2] at heqa
      rw [hA2]
      exact heqa
    · have hup := selectCellById_active_up nb2 a.id hfind2 hgt
      have hcnt : visibleStepsUp nb2 j nb2.activeCellIndex
          = nb2.activeCellIndex - j := by
        unfold visibleStepsUp
        rw [List.countP_eq_length.mpr, List.length_range']
        intro i hi
        have hb := List.mem_range'_1.mp hi
        have hxv : (X.widgets.getD i dummyCell).inputHidden = false := by
          apply hvis
          rw [List.mem_range'_1]
          rw [hA2] at hb hgt
          omega
        rw [hhid2 i, hxv]
        rfl
      rw [hup, hcnt]
      omega
  rw [heq]
  refine ⟨rfl, hactive, ?_⟩
  show ((setChapyterMetadata (selectCellById nb2 a.id) it
      ⟨some a.id, ChapyterCellType.original⟩).widgets.getD j dummyCell).inputHidden
    = a.inputHidden
  have hstep : ((updateAt (selectCellById nb2 a.id).widgets it
      (withMeta ⟨some a.id, ChapyterCellType.original⟩)).getD j
        dummyCell).inputHidden
      = ((selectCellById nb2 a.id).widgets.getD j dummyCell).inputHidden :=
    getD_updateAt_field (selectCellById nb2 a.id).widgets it j
      (withMeta ⟨some a.id, ChapyterCellType.original⟩) dummyCell
      (fun c => c.inputHidden) (fun c => rfl)
  rw [show (setChapyterMetadata (selectCellById nb2 a.id) it
      ⟨some a.id, ChapyterCellType.original⟩).widgets
      = updateAt (selectCellById nb2 a.id).widgets it
        (withMeta ⟨some a.id, ChapyterCellType.original⟩) from rfl,
    hstep, selectCellById_widgets]
  exact hhid2 j

/-- One `executedLinkStep` adds at most one generated cell linked to
any given trigger id. -/
theorem countGenLinked_linkStep_le (X : Notebook) (it : Nat) (t : Cell)
    (safe : Bool) (j : Nat) (tid : String) :
    countGenLinked (executedLinkStep X it t safe j).1 tid
      ≤ countGenLinked X tid + 1 := by
  cases safe with
  | false =>
    rw [executedLinkStep_run]
    refine le_trans (countGenLinked_setMeta_original_le _ it _ tid) ?_
    rw [countGenLinked_selectBelow, countGenLinked_selectCellById,
      countGenLinked_setInputHidden, countGenLinked_selectCellById]
    exact countGenLinked_setMeta_le_succ X j _ tid
  | true =>
    rw [executedLinkStep_safe]
    refine le_trans (countGenLinked_setMeta_original_le _ it _ tid) ?_
    rw [countGenLinked_selectCellById]
    exact countGenLinked_setMeta_le_succ X j _ tid

/-- The executed handler with no matching assistance cell only (at
most) tags the trigger cell. -/
theorem executedHandler_nofind (nb : Notebook) (it : Nat) (t : Cell)
    (hget : nb.widgets.getD it dummyCell = t)
    (hguard : (isCellChapyterMagicCell t true && isCellNotGenerated t) = true)
    (hfind : findCellByTemplateStringIdx nb t.executionCount = none) :
    executedHandler nb it true
      = (if t.chapyterMetadata = none
          then setChapyterMetadata nb it ⟨none, ChapyterCellType.original⟩
          else nb, []) := by
  simp only [executedHandler, hget, hguard, if_true]
  by_cases hmeta : t.chapyterMetadata = none
  · rw [if_pos hmeta, findTemplate_setMeta, hfind]
  · rw [if_neg hmeta, hfind]

/-- Starting from a state with no generated cell linked to the id, one
run of the executed handler leaves at most one. -/
theorem countGenLinked_executed_le (nb : Notebook) (it : Nat) (s : Bool)
    (tid : String) (h0 : countGenLinked nb tid = 0) :
    countGenLinked (executedHandler nb it s).1 tid ≤ 1 := by
  cases s with
  | false =>
    show countGenLinked nb tid ≤ 1
    omega
  | true =>
    set t := nb.widgets.getD it dummyCell with ht
    by_cases hguard : (isCellChapyterMagicCell t true && isCellNotGenerated t)
        = true
    · have hc1 : countGenLinked
          (if t.chapyterMetadata = none
            then setChapyterMetadata nb it ⟨none, ChapyterCellType.original⟩
            else nb) tid = 0 := by
        by_cases hmeta : t.chapyterMetadata = none
        · rw [if_pos hmeta]
          have := countGenLinked_setMeta_original_le nb it none tid
          omega
        · rw [if_neg hmeta]
          exact h0
      cases hfind : findCellByTemplateStringIdx nb t.executionCount with
      | none =>
        rw [executedHandler_nofind nb it t ht.symm hguard hfind]
        show countGenLinked
          (if t.chapyterMetadata = none
            then setChapyterMetadata nb it ⟨none, ChapyterCellType.original⟩
            else nb) tid ≤ 1
        omega
      | some j =>
        rw [executedHandler_found nb it t ht.symm hguard hfind]
        have := countGenLinked_linkStep_le
          (if t.chapyterMetadata = none
            then setChapyterMetadata nb it ⟨none, ChapyterCellType.original⟩
            else nb) it t (isCellChapyterMagicCellSafeMode t) j tid
        omega
    · have hg : (isCellChapyterMagicCell t true && isCellNotGenerated t)
          = false := by
        cases hx : (isCellChapyterMagicCell t true && isCellNotGenerated t) with
        | true => exact absurd hx hguard
        | false => rfl
      rw [executedHandler_not_magic nb it true (by rw [← ht]; exact hg)]
      show countGenLinked nb tid ≤ 1
      omega

end LinkStepLemmas

/-! ## Claim theorems -/

/-- C1 (amended): after `deleteCell` removes at least one deletable
occurrence, the active index equals `lastDeletedIndex - deletedCount + 1`
where `lastDeletedIndex` is the LARGEST original index deleted — the
source reads `toDelete[0]` after the in-place `reverse()`, so the first
element of the reversed list is the largest deleted index, not the
smallest.  The second conjunct certifies that `getLast` is indeed the
largest deleted index. -/
theorem C1_deleteCell_activeIndex (nb : Notebook) (cell : Cell)
    (h : toDeleteIndices nb cell ≠ []) :
    (deleteCell nb cell).activeCellIndex
      = (toDeleteIndices nb cell).getLast h + 1 - (toDeleteIndices nb cell).length
    ∧ ∀ i ∈ toDeleteIndices nb cell, i ≤ (toDeleteIndices nb cell).getLast h := by
  constructor
  · rw [deleteCell_active_of_ne nb cell h, reverse_headD_eq_getLast _ h]
  · exact le_getLast_of_sorted _ (toDeleteIndices_sorted nb cell) h

/-- C1 counterexample: deleting the cell occurring at original indices
{1, 3} of a 5-cell notebook leaves `activeCellIndex = 3 - 2 + 1 = 2`,
not `1 - 2 + 1 = 0` as the claim states. -/
theorem C1_counterexample :
    toDeleteIndices nbDupDelete dupCell = [1, 3]
    ∧ (deleteCell nbDupDelete dupCell).activeCellIndex = 2
    ∧ ¬((deleteCell nbDupDelete dupCell).activeCellIndex = 0) := by
  decide

/-- C1 witness: the amended statement evaluated on the concrete
duplicate-cell notebook. -/
theorem C1_witness :
    ∃ h : toDeleteIndices nbDupDelete dupCell ≠ [],
      (deleteCell nbDupDelete dupCell).activeCellIndex
        = (toDeleteIndices nbDupDelete dupCell).getLast h + 1
          - (toDeleteIndices nbDupDelete dupCell).length := by
  have h : toDeleteIndices nbDupDelete dupCell ≠ [] := by decide
  exact ⟨h, (C1_deleteCell_activeIndex nbDupDelete dupCell h).1⟩

/-- C2: `isCellChapyterMagicCell cell strict` is true exactly when the
source starts with `%chat` or `%%chat` and additionally the source does
not start with `%%chatonly` or `strict` is false; in particular a
`%%chatonly` cell is rejected with `strict = true` and accepted with
`strict = false`. -/
theorem C2_isMagicCell (cell : Cell) (strict : Bool) :
    (isCellChapyterMagicCell cell strict = true ↔
      ((strStartsWith cell.source "%chat" = true
          ∨ strStartsWith cell.source "%%chat" = true)
        ∧ (strStartsWith cell.source "%%chatonly" = false ∨ strict = false)))
    ∧ (strStartsWith cell.source "%%chatonly" = true →
        isCellChapyterMagicCell cell true = false
          ∧ isCellChapyterMagicCell cell false = true) := by
  constructor
  · unfold isCellChapyterMagicCell
    cases h1 : strStartsWith cell.source "%chat" <;>
      cases h2 : strStartsWith cell.source "%%chat" <;>
        cases h3 : strStartsWith cell.source "%%chatonly" <;>
          cases strict <;> simp_all
  · intro h3
    have h2 : strStartsWith cell.source "%%chat" = true :=
      listIsPrefix_trans ("%%chat".toList) ("%%chatonly".toList)
        (cell.source.toList) (by decide) h3
    constructor <;> unfold isCellChapyterMagicCell <;> simp [h2, h3]

/-- C2 witness: the characterization applied to a concrete `%%chatonly`
cell. -/
theorem C2_witness :
    strStartsWith chatonlyCell.source "%%chatonly" = true
    ∧ isCellChapyterMagicCell chatonlyCell true = false
    ∧ isCellChapyterMagicCell chatonlyCell false = true := by
  have h3 : strStartsWith chatonlyCell.source "%%chatonly" = true := by decide
  exact ⟨h3, ((C2_isMagicCell chatonlyCell true).2 h3).1,
    ((C2_isMagicCell chatonlyCell false).2 h3).2⟩

/-- C6: an `executed` event with `success = false` changes nothing and
issues no host command. -/
theorem C6_failed_execution_noop (nb : Notebook) (it : Nat) :
    executedHandler nb it false = (nb, []) := rfl

/-- C7: a code cell whose text starts with neither `%chat` nor `%%chat`
makes both handlers complete no-ops: the notebook (cells, metadata,
active index, deletion log) is returned unchanged and no host command is
issued. -/
theorem C7_non_magic_noop (nb : Notebook) (it : Nat) (t : Cell)
    (hget : nb.widgets.get? it = some t)
    (h1 : strStartsWith t.source "%chat" = false)
    (h2 : strStartsWith t.source "%%chat" = false) :
    (∀ s, executedHandler nb it s = (nb, []))
    ∧ executionScheduledHandler nb it = nb := by
  have hgetD : nb.widgets.getD it dummyCell = t := by
    rw [getD_eq_get?_getD, hget]; rfl
  have hmagic : ∀ b, isCellChapyterMagicCell t b = false := by
    intro b
    simp [isCellChapyterMagicCell, h1, h2]
  constructor
  · intro s
    apply executedHandler_not_magic
    rw [hgetD, hmagic]
    simp
  · apply scheduledHandler_not_magic
    rw [hgetD, hmagic]
    simp

/-- C7 witness: both handlers evaluated on a concrete non-magic cell. -/
theorem C7_witness :
    executedHandler nbOrdinary 0 true = (nbOrdinary, [])
    ∧ executionScheduledHandler nbOrdinary 0 = nbOrdinary := by
  have h := C7_non_magic_noop nbOrdinary 0 ordinaryCell (by decide)
    (by decide) (by decide)
  exact ⟨h.1 true, h.2⟩

/-- C8 (amended): `selectCellById` is a no-op when the id is absent or
already active; otherwise it moves the cursor one step per NON-HIDDEN
loop position between the start and the target, so it reaches the
target index exactly when every such position is non-hidden — with a
hidden cell strictly between, the cursor stops short of the target. -/
theorem C8_selectCellById_navigation (nb : Notebook) (id : String) :
    (findCellIndexById nb id = none → selectCellById nb id = nb)
    ∧ ∀ t, findCellIndexById nb id = some t →
        (nb.activeCellIndex = t → selectCellById nb id = nb)
        ∧ (nb.activeCellIndex < t →
            (selectCellById nb id).activeCellIndex
              = nb.activeCellIndex + visibleStepsDown nb nb.activeCellIndex t
            ∧ ((∀ i ∈ List.range' nb.activeCellIndex (t - nb.activeCellIndex),
                  (nb.widgets.getD i dummyCell).inputHidden = false) →
                (selectCellById nb id).activeCellIndex = t))
        ∧ (t < nb.activeCellIndex →
            (selectCellById nb id).activeCellIndex
              = nb.activeCellIndex - visibleStepsUp nb t nb.activeCellIndex
            ∧ ((∀ i ∈ List.range' (t + 1) (nb.activeCellIndex - t),
                  (nb.widgets.getD i dummyCell).inputHidden = false) →
                (selectCellById nb id).activeCellIndex = t)) := by
  refine ⟨selectCellById_none nb id, ?_⟩
  intro t hfind
  refine ⟨selectCellById_already_active nb id hfind, ?_, ?_⟩
  · intro hlt
    have hdown := selectCellById_active_down nb id hfind hlt
    refine ⟨hdown, ?_⟩
    intro hvis
    have hc : visibleStepsDown nb nb.activeCellIndex t = t - nb.activeCellIndex := by
      unfold visibleStepsDown
      rw [List.countP_eq_length.mpr (fun a ha => by rw [hvis a ha]; rfl),
        List.length_range']
    rw [hdown, hc]
    omega
  · intro hgt
    have hup := selectCellById_active_up nb id hfind hgt
    refine ⟨hup, ?_⟩
    intro hvis
    have hc : visibleStepsUp nb t nb.activeCellIndex
        = nb.activeCellIndex - t := by
      unfold visibleStepsUp
      rw [List.countP_eq_length.mpr (fun a ha => by rw [hvis a ha]; rfl),
        List.length_range']
    rw [hup, hc]
    omega

/-- C8 counterexample: with a hidden cell strictly between the cursor
and the target, the walk stops at index 1 instead of reaching the target
index 2. -/
theorem C8_counterexample :
    findCellIndexById nbNavHidden "n2" = some 2
    ∧ (selectCellById nbNavHidden "n2").activeCellIndex = 1
    ∧ ¬((selectCellById nbNavHidden "n2").activeCellIndex = 2) := by
  decide

/-- C8 witness: the amended step-count statement evaluated on the
concrete hidden-cell notebook. -/
theorem C8_witness :
    findCellIndexById nbNavHidden "n2" = some 2
    ∧ (selectCellById nbNavHidden "n2").activeCellIndex
        = nbNavHidden.activeCellIndex
          + visibleStepsDown nbNavHidden nbNavHidden.activeCellIndex 2 := by
  have hfind : findCellIndexById nbNavHidden "n2" = some 2 := by decide
  have h := (C8_selectCellById_navigation nbNavHidden "n2").2 2 hfind
  exact ⟨hfind, (h.2.1 (by decide)).1⟩

/-- C10: `findCellByTemplateString` returns `none` whenever the
execution id is 0 — the JS guard `if (executionId)` treats 0 as falsy —
even on a notebook containing a code cell whose first line starts with
the `[0]` marker. -/
theorem C10_template_zero :
    (∀ nb : Notebook, findCellByTemplateString nb (some 0) = none)
    ∧ ((∃ c ∈ nbMarkerZero.widgets, c.isCode = true
        ∧ strStartsWith (firstLineOf c.source) (searchTempalte 0) = true)
      ∧ findCellByTemplateString nbMarkerZero (some 0) = none) := by
  refine ⟨fun nb => rfl, ⟨⟨markerZeroCell, by decide, by decide, by decide⟩, rfl⟩⟩

/-- C3 (amended): when the trigger's previously linked generated cell
is DELETABLE and is the only generated cell linked to the trigger, the
scheduled handler removes it (leaving zero generated cells linked to
the trigger), and any subsequent run of the executed handler from a
state with zero linked generated cells links at most one — so re-running
a trigger never leaves two generated cells linked to it simultaneously.
The deletable condition is forced by the counterexample: `deleteCell`
skips cells whose `deletable` metadata is `false`. -/
theorem C3_no_duplicate_generated (nb : Notebook) (it : Nat) (t g : Cell)
    (gid : String)
    (hget : nb.widgets.getD it dummyCell = t)
    (hguard : (isCellChapyterMagicCell t false && isCellNotGenerated t) = true)
    (hlink : t.chapyterMetadata.bind (fun m => m.linkedCellId) = some gid)
    (hfound : findCellById nb gid = some g)
    (hdel : g.deletable = true)
    (hall : ∀ c ∈ nb.widgets, isGenLinkedTo t.id c = true → c = g) :
    countGenLinked (executionScheduledHandler nb it) t.id = 0
    ∧ ∀ (nb' : Notebook) (it' : Nat) (s : Bool), countGenLinked nb' t.id = 0 →
        countGenLinked (executedHandler nb' it' s).1 t.id ≤ 1 := by
  have hd := scheduled_deletes_linked nb it t g gid hget hguard hlink hfound hdel
  constructor
  · unfold countGenLinked
    rw [List.countP_eq_zero]
    intro c hc habs
    have hcg : c = g := hall c (hd.2 c hc) habs
    rw [hcg] at hc
    exact hd.1 hc
  · intro nb' it' s h0
    exact countGenLinked_executed_le nb' it' s t.id h0

/-- C3 counterexample: with a NON-deletable previously linked generated
cell, the scheduled handler deletes nothing (the stale cell survives),
and the executed handler then links the fresh assistance cell — two
generated cells are simultaneously linked to the same trigger. -/
theorem C3_counterexample :
    executionScheduledHandler nbStaleUndeletable 0 = nbStaleUndeletable
    ∧ staleGenUndeletable ∈ (executionScheduledHandler nbStaleUndeletable 0).widgets
    ∧ countGenLinked (executedHandler nbStaleUndeletableFresh 0 true).1 "t" = 2 := by
  decide

/-- C3 witness: the amended statement evaluated on the deletable
variant: the scheduled handler empties the linked set, and a fresh
executed run links at most one. -/
theorem C3_witness :
    countGenLinked (executionScheduledHandler nbStaleDeletable 0) "t" = 0
    ∧ countGenLinked (executedHandler nbFreshLink 0 true).1 "t" ≤ 1 := by
  have h := C3_no_duplicate_generated nbStaleDeletable 0 trigCell
    staleGenDeletable "g" (by decide) (by decide) (by decide) (by decide)
    (by decide) (by decide)
  exact ⟨h.1, h.2 nbFreshLink 0 true (by decide)⟩

/-- C4: after a successful run of the executed handler on a strict
magic trigger (not itself generated) for which the template search
finds the assistance cell at a different position, the trigger cell's
metadata links to the generated cell's id with cellType original, and
the generated cell's metadata links back to the trigger cell's id with
cellType generated — the link is bidirectional and consistent. -/
theorem C4_bidirectional_link (nb : Notebook) (it : Nat) (t : Cell) {j : Nat}
    (hget : nb.widgets.get? it = some t)
    (hmagic : isCellChapyterMagicCell t true = true)
    (hnotgen : isCellNotGenerated t = true)
    (hfind : findCellByTemplateStringIdx nb t.executionCount = some j)
    (hne : it ≠ j) :
    ∃ tc gc,
      (executedHandler nb it true).1.widgets.get? it = some tc
      ∧ (executedHandler nb it true).1.widgets.get? j = some gc
      ∧ tc.chapyterMetadata = some ⟨some gc.id, ChapyterCellType.original⟩
      ∧ gc.chapyterMetadata = some ⟨some tc.id, ChapyterCellType.generated⟩
      ∧ tc.id = t.id := by
  have hgetD : nb.widgets.getD it dummyCell = t := by
    rw [getD_eq_get?_getD, hget]
    rfl
  have hguard : (isCellChapyterMagicCell t true && isCellNotGenerated t) = true := by
    rw [hmagic, hnotgen]
    rfl
  have hj : j < nb.widgets.length := findTemplate_lt nb _ hfind
  have hred := executedHandler_found nb it t hgetD hguard hfind
  by_cases hmeta : t.chapyterMetadata = none
  · rw [if_pos hmeta] at hred
    have hj1 : j < (setChapyterMetadata nb it
        ⟨none, ChapyterCellType.original⟩).widgets.length := by
      show j < (updateAt nb.widgets it
        (withMeta ⟨none, ChapyterCellType.original⟩)).length
      rw [length_updateAt]
      exact hj
    have hgetit1 : (setChapyterMetadata nb it
        ⟨none, ChapyterCellType.original⟩).widgets.get? it
        = some (withMeta ⟨none, ChapyterCellType.original⟩ t) := by
      show (updateAt nb.widgets it
        (withMeta ⟨none, ChapyterCellType.original⟩)).get? it = _
      rw [get?_updateAt_self, hget]
      rfl
    have hit := linkStep_get_it (setChapyterMetadata nb it
      ⟨none, ChapyterCellType.original⟩) it t
      (isCellChapyterMagicCellSafeMode t) hne
    have hjj := linkStep_get_j (setChapyterMetadata nb it
      ⟨none, ChapyterCellType.original⟩) it t
      (isCellChapyterMagicCellSafeMode t) hne hj1
    refine ⟨withMeta ⟨some ((setChapyterMetadata nb it
          ⟨none, ChapyterCellType.original⟩).widgets.getD j dummyCell).id,
          ChapyterCellType.original⟩
        (withMeta ⟨none, ChapyterCellType.original⟩ t),
      withHidden (if isCellChapyterMagicCellSafeMode t = true
          then ((setChapyterMetadata nb it
            ⟨none, ChapyterCellType.original⟩).widgets.getD j
              dummyCell).inputHidden
          else true)
        (withMeta ⟨some t.id, ChapyterCellType.generated⟩
          ((setChapyterMetadata nb it
            ⟨none, ChapyterCellType.original⟩).widgets.getD j dummyCell)),
      ?_, ?_, rfl, rfl, rfl⟩
    · rw [hred, hit, hgetit1]
      rfl
    · rw [hred]
      exact hjj
  · rw [if_neg hmeta] at hred
    have hit := linkStep_get_it nb it t (isCellChapyterMagicCellSafeMode t) hne
    have hjj := linkStep_get_j nb it t (isCellChapyterMagicCellSafeMode t) hne hj
    refine ⟨withMeta ⟨some (nb.widgets.getD j dummyCell).id,
          ChapyterCellType.original⟩ t,
      withHidden (if isCellChapyterMagicCellSafeMode t = true
          then (nb.widgets.getD j dummyCell).inputHidden else true)
        (withMeta ⟨some t.id, ChapyterCellType.generated⟩
          (nb.widgets.getD j dummyCell)),
      ?_, ?_, rfl, rfl, rfl⟩
    · rw [hred, hit, hget]
      rfl
    · rw [hred]
      exact hjj

/-- C4 witness: the bidirectional link evaluated on a fresh trigger
directly above its assistance cell. -/
theorem C4_witness :
    ∃ tc gc,
      (executedHandler nbFreshLink 0 true).1.widgets.get? 0 = some tc
      ∧ (executedHandler nbFreshLink 0 true).1.widgets.get? 1 = some gc
      ∧ tc.chapyterMetadata = some ⟨some gc.id, ChapyterCellType.original⟩
      ∧ gc.chapyterMetadata = some ⟨some tc.id, ChapyterCellType.generated⟩
      ∧ tc.id = trigFresh.id :=
  C4_bidirectional_link nbFreshLink 0 trigFresh (by decide) (by decide)
    (by decide) (by decide) (by decide)

/-- C5 (amended): in safe mode, when the executed handler finds the
assistance cell, it issues no run request, leaves the assistance cell's
input visibility unchanged, does not step below it, and the cursor ends
ON the assistance cell provided no cell on the cursor's path (between
the current active index and the assistance index, inclusive) has a
hidden input region — with a hidden cell strictly between, the cursor
stops short of the assistance cell. -/
theorem C5_safe_mode (nb : Notebook) (it : Nat) (t : Cell) {j : Nat}
    (hnodup : (nb.widgets.map (fun x => x.id)).Nodup)
    (hget : nb.widgets.get? it = some t)
    (hmagic : isCellChapyterMagicCell t true = true)
    (hnotgen : isCellNotGenerated t = true)
    (hsafe : isCellChapyterMagicCellSafeMode t = true)
    (hfind : findCellByTemplateStringIdx nb t.executionCount = some j)
    (hvis : ∀ i ∈ List.range' (min nb.activeCellIndex j)
        (max nb.activeCellIndex j + 1 - min nb.activeCellIndex j),
        (nb.widgets.getD i dummyCell).inputHidden = false) :
    (executedHandler nb it true).2 = []
    ∧ (executedHandler nb it true).1.activeCellIndex = j
    ∧ ((executedHandler nb it true).1.widgets.getD j dummyCell).inputHidden
        = (nb.widgets.getD j dummyCell).inputHidden := by
  have hgetD : nb.widgets.getD it dummyCell = t := by
    rw [getD_eq_get?_getD, hget]
    rfl
  have hguard : (isCellChapyterMagicCell t true && isCellNotGenerated t) = true := by
    rw [hmagic, hnotgen]
    rfl
  have hj : j < nb.widgets.length := findTemplate_lt nb _ hfind
  have hred := executedHandler_found nb it t hgetD hguard hfind
  rw [hsafe] at hred
  by_cases hmeta : t.chapyterMetadata = none
  · rw [if_pos hmeta] at hred
    have hXw : (setChapyterMetadata nb it
        ⟨none, ChapyterCellType.original⟩).widgets
        = updateAt nb.widgets it (withMeta ⟨none, ChapyterCellType.original⟩) :=
      rfl
    have hj1 : j < (setChapyterMetadata nb it
        ⟨none, ChapyterCellType.original⟩).widgets.length := by
      rw [hXw, length_updateAt]
      exact hj
    have hnodup1 : ((setChapyterMetadata nb it
        ⟨none, ChapyterCellType.original⟩).widgets.map (fun x => x.id)).Nodup := by
      rw [hXw, map_updateAt_pres nb.widgets it
        (withMeta ⟨none, ChapyterCellType.original⟩) (fun x => x.id)
        (fun c => rfl)]
      exact hnodup
    have hhidX : ∀ i, ((setChapyterMetadata nb it
        ⟨none, ChapyterCellType.original⟩).widgets.getD i dummyCell).inputHidden
        = (nb.widgets.getD i dummyCell).inputHidden := by
      intro i
      rw [hXw]
      exact getD_updateAt_field nb.widgets it i
        (withMeta ⟨none, ChapyterCellType.original⟩) dummyCell
        (fun c => c.inputHidden) (fun c => rfl)
    have hvis1 : ∀ i ∈ List.range'
        (min (setChapyterMetadata nb it
          ⟨none, ChapyterCellType.original⟩).activeCellIndex j)
        (max (setChapyterMetadata nb it
          ⟨none, ChapyterCellType.original⟩).activeCellIndex j + 1
          - min (setChapyterMetadata nb it
            ⟨none, ChapyterCellType.original⟩).activeCellIndex j),
        ((setChapyterMetadata nb it
          ⟨none, ChapyterCellType.original⟩).widgets.getD i dummyCell).inputHidden
          = false := by
      intro i hi
      rw [hhidX i]
      exact hvis i hi
    have hprops := linkStep_safe_props (setChapyterMetadata nb it
      ⟨none, ChapyterCellType.original⟩) it t hj1 hnodup1 hvis1
    rw [hred]
    exact ⟨hprops.1, hprops.2.1, by rw [hprops.2.2]; exact hhidX j⟩
  · rw [if_neg hmeta] at hred
    have hprops := linkStep_safe_props nb it t hj hnodup hvis
    rw [hred]
    exact ⟨hprops.1, hprops.2.1, hprops.2.2⟩

/-- C5 counterexample: with a hidden cell between the safe-mode trigger
and its assistance cell, no run is requested and the input stays
visible, but the cursor ends at index 1, not on the assistance cell at
index 2 — the claim's "active cell ends on the generated cell" fails. -/
theorem C5_counterexample :
    (executedHandler nbSafeHidden 0 true).2 = []
    ∧ findCellByTemplateStringIdx nbSafeHidden (some 1) = some 2
    ∧ ((executedHandler nbSafeHidden 0 true).1.widgets.getD 2
        dummyCell).inputHidden = false
    ∧ (executedHandler nbSafeHidden 0 true).1.activeCellIndex = 1
    ∧ ¬((executedHandler nbSafeHidden 0 true).1.activeCellIndex = 2) := by
  decide

/-- C5 witness: the amended safe-mode statement evaluated on a concrete
trigger directly above its assistance cell. -/
theorem C5_witness :
    (executedHandler nbSafePlain 0 true).2 = []
    ∧ (executedHandler nbSafePlain 0 true).1.activeCellIndex = 1
    ∧ ((executedHandler nbSafePlain 0 true).1.widgets.getD 1
        dummyCell).inputHidden
      = (nbSafePlain.widgets.getD 1 dummyCell).inputHidden :=
  C5_safe_mode nbSafePlain 0 trigSafe (by decide) (by decide) (by decide)
    (by decide) (by decide) (by decide) (by decide)

/-- C9: when the scheduled handler deletes the previously linked
generated cell and the subsequent executed handler finds no cell
matching the marker, the executed handler changes nothing, so the
trigger cell still carries the old `linkedCellId`, which now names a
cell that no longer exists — the link-consistency invariant is broken. -/
theorem C9_dangling_link (nb : Notebook) (it it1 : Nat) (t g : Cell)
    (gid : String) (nb1 : Notebook)
    (hnb1 : nb1 = executionScheduledHandler nb it)
    (hget : nb.widgets.getD it dummyCell = t)
    (hguard : (isCellChapyterMagicCell t false && isCellNotGenerated t) = true)
    (hmeta : t.chapyterMetadata = some ⟨some gid, ChapyterCellType.original⟩)
    (hfound : findCellById nb gid = some g)
    (hdel : g.deletable = true)
    (hallid : ∀ c ∈ nb.widgets, c.id = gid → c = g)
    (hget1 : nb1.widgets.get? it1 = some t)
    (hfind1 : findCellByTemplateStringIdx nb1 t.executionCount = none) :
    (executedHandler nb1 it1 true).1 = nb1
    ∧ findCellById (executedHandler nb1 it1 true).1 gid = none
    ∧ ((executedHandler nb1 it1 true).1.widgets.getD it1 dummyCell).chapyterMetadata
        = some ⟨some gid, ChapyterCellType.original⟩ := by
  have hlink : t.chapyterMetadata.bind (fun m => m.linkedCellId) = some gid := by
    rw [hmeta]
    rfl
  have hgetD1 : nb1.widgets.getD it1 dummyCell = t := by
    rw [getD_eq_get?_getD, hget1]
    rfl
  have hexec : executedHandler nb1 it1 true = (nb1, []) :=
    executedHandler_no_assist nb1 it1 t hgetD1 hfind1 (by rw [hmeta]; simp)
  have hdel2 := scheduled_deletes_linked nb it t g gid hget hguard hlink hfound hdel
  have hnone : findCellById nb1 gid = none := by
    rw [hnb1]
    apply List.find?_eq_none.mpr
    intro c hc habs
    have hcid : c.id = gid := of_decide_eq_true habs
    have hcnb : c ∈ nb.widgets := hdel2.2 c hc
    have hcg : c = g := hallid c hcnb hcid
    rw [hcg] at hc
    exact hdel2.1 hc
  refine ⟨by rw [hexec], by rw [hexec]; exact hnone, ?_⟩
  rw [hexec]
  show (nb1.widgets.getD it1 dummyCell).chapyterMetadata = _
  rw [hgetD1, hmeta]

/-- C9 witness: the dangling-link scenario evaluated on a concrete
notebook holding the linked trigger and a deletable generated cell. -/
theorem C9_witness :
    (executedHandler (executionScheduledHandler nbStaleDeletable 0) 0 true).1
        = executionScheduledHandler nbStaleDeletable 0
    ∧ findCellById
        (executedHandler (executionScheduledHandler nbStaleDeletable 0) 0 true).1
        "g" = none
    ∧ (((executedHandler (executionScheduledHandler nbStaleDeletable 0) 0
          true).1.widgets.getD 0 dummyCell).chapyterMetadata
        = some ⟨some "g", ChapyterCellType.original⟩) :=
  C9_dangling_link nbStaleDeletable 0 0 trigCell staleGenDeletable "g"
    (executionScheduledHandler nbStaleDeletable 0) rfl (by decide) (by decide)
    (by decide) (by decide) (by decide) (by decide) (by decide) (by decide)

end Chapyter
